import Mathlib

/-!
Verification of the configuration loader of the telefeed repository
(`src/config.rs`), shallowly embedded in Lean.

The loader reads a YAML file into `RawConfig`, resolves layered defaults,
resolves each destination key to a `ChatId` (numeric when the key parses as a
signed 64-bit integer, symbolic otherwise), and assembles an immutable
`Config`.  The raw `feeds` field in the source is a Rust
`std::collections::HashMap`, whose iteration order is unspecified; the
embedding therefore keeps the map's contents as an association list and
quantifies over the order in which the map yields its entries (any permutation
of its contents).
-/

namespace Telefeed

/-- Diagnostic carried by a YAML parse failure (opaque in the source). -/
abbrev YamlError := String

/-- Diagnostic carried by an I/O failure (opaque in the source). -/
abbrev IoError := String

/-- Diagnostic carried by a proxy-address validation failure (opaque in the source). -/
abbrev ParseProxyError := String

/-- Smallest value of the outbound-messaging integer domain (`tgbot::types::Integer` is `i64`). -/
def i64Min : Int := -(2 ^ 63)

/-- Largest value of the outbound-messaging integer domain. -/
def i64Max : Int := 2 ^ 63 - 1

/-- `tgbot::types::ChatId`: either a numeric chat identifier or a symbolic name. -/
inductive ChatId where
  | id (n : Int)
  | username (s : String)
deriving DecidableEq, Repr

/-- `FeedKind` from `config.rs`: only the two variants `rss` and `atom`. -/
inductive FeedKind where
  | Rss
  | Atom
deriving DecidableEq, Repr

/-- `std::time::Duration` restricted to whole seconds, as used by the loader. -/
structure Duration where
  secs : Nat
deriving DecidableEq, Repr

/-- `Duration::from_secs`. -/
def Duration.from_secs (n : Nat) : Duration := ⟨n⟩

/-- `RawFeedConfig` from `config.rs` (the per-entry shape before defaulting). -/
structure RawFeedConfig where
  url : String
  kind : FeedKind
  include_feed_title : Option Bool
  request_timeout : Option Nat
deriving DecidableEq, Repr

/-- `RawConfig` from `config.rs`.  `feeds` holds the contents of the source's
`HashMap<String, Vec<RawFeedConfig>>` as an association list with distinct
keys; the list order stands for the order in which the map yields its entries,
which in Rust is unspecified. -/
structure RawConfig where
  token : String
  proxy : Option String
  redis_url : String
  feeds : List (String × List RawFeedConfig)
  include_feed_title : Option Bool
  request_timeout : Option Nat
deriving DecidableEq, Repr

/-- `FeedConfig` from `config.rs` (a fully resolved feed subscription). -/
structure FeedConfig where
  chat_id : ChatId
  url : String
  kind : FeedKind
  include_feed_title : Bool
  request_timeout : Duration
deriving DecidableEq, Repr

/-- `Config` from `config.rs`. -/
structure Config where
  token : String
  proxy : Option String
  redis_url : String
  feeds : List FeedConfig
deriving DecidableEq, Repr

/-- `ConfigError` from `config.rs`. -/
inductive ConfigError where
  | ParseYaml (err : YamlError)
  | ProxyAddress (err : ParseProxyError)
  | ReadFile (path : String) (err : IoError)
deriving DecidableEq, Repr

/-- The underlying cause exposed by `Error::source` (a `dyn Error` in the source,
here a tagged union of the three diagnostic types). -/
inductive ErrorCause where
  | yaml (e : YamlError)
  | proxy (e : ParseProxyError)
  | io (e : IoError)
deriving DecidableEq, Repr

/-- `impl Error for ConfigError { fn source }` from `config.rs` lines 128-136. -/
def ConfigError.source : ConfigError → Option ErrorCause
  | .ParseYaml e => some (.yaml e)
  | .ProxyAddress e => some (.proxy e)
  | .ReadFile _ e => some (.io e)

/-- `DEFAULT_INCLUDE_FEED_TITLE` from `config.rs`. -/
def DEFAULT_INCLUDE_FEED_TITLE : Bool := false

/-- `DEFAULT_REQUEST_TIMEOUT` from `config.rs` (seconds). -/
def DEFAULT_REQUEST_TIMEOUT : Nat := 1200

/-- Accumulate the value of a run of decimal digits, most significant first. -/
def digitsToNat : List Char → Nat → Nat
  | [], acc => acc
  | c :: cs, acc => digitsToNat cs (acc * 10 + (c.toNat - 48))

/-- Split a leading sign character off a numeral, yielding the sign factor and
the remaining characters. -/
def splitSign : List Char → Int × List Char
  | '+' :: rest => (1, rest)
  | '-' :: rest => (-1, rest)
  | rest => (1, rest)

/-- `str::parse::<i64>` from Rust: an optional sign followed by one or more
ASCII decimal digits, rejecting anything else and any value outside the `i64`
range (no truncation or wrapping). -/
def parseI64 (s : String) : Option Int :=
  let sd := splitSign s.data
  if sd.2.isEmpty then none
  else if sd.2.all (fun c => c.isDigit) then
    let v : Int := sd.1 * (digitsToNat sd.2 0 : Nat)
    if i64Min ≤ v ∧ v ≤ i64Max then some v else none
  else none

/-- Lines 57-60 of `config.rs`: resolve a destination key to a `ChatId`. -/
def resolveChatId (key : String) : ChatId :=
  match parseI64 key with
  | some chat_id => ChatId.id chat_id
  | none => ChatId.username key

/-- Construction of one `FeedConfig` in the inner loop of `Config::from_file`
(lines 62-70), given the resolved chat id and the file-global defaults. -/
def mkFeed (cid : ChatId) (dIft : Bool) (dRt : Nat) (rf : RawFeedConfig) : FeedConfig :=
  { chat_id := cid
    url := rf.url
    kind := rf.kind
    include_feed_title := rf.include_feed_title.getD dIft
    request_timeout := Duration.from_secs (rf.request_timeout.getD dRt) }

/-- Lines 53-78 of `Config::from_file`: default resolution and the double loop
pushing one `FeedConfig` per raw feed entry, iterating over `raw.feeds` in the
order the map yields its entries. -/
def Config.build (raw : RawConfig) : Config :=
  let dIft := raw.include_feed_title.getD DEFAULT_INCLUDE_FEED_TITLE
  let dRt := raw.request_timeout.getD DEFAULT_REQUEST_TIMEOUT
  { token := raw.token
    proxy := raw.proxy
    redis_url := raw.redis_url
    feeds := raw.feeds.foldl (fun acc p =>
      p.2.foldl (fun acc2 rf => acc2 ++ [mkFeed (resolveChatId p.1) dIft dRt rf]) acc) [] }

/-- A YAML document at the value level (after textual scanning), with string
keys as required by the `RawConfig` schema. -/
inductive Yaml where
  | null
  | str (s : String)
  | bool (b : Bool)
  | int (n : Int)
  | list (xs : List Yaml)
  | map (kvs : List (String × Yaml))

/-- First value bound to a key in a YAML mapping's entry list. -/
def lookupY (kvs : List (String × Yaml)) (k : String) : Option Yaml :=
  match kvs.find? (fun p => p.1 == k) with
  | some p => some p.2
  | none => none

/-- serde: a required string field of a struct. -/
def reqString (kvs : List (String × Yaml)) (k : String) : Except YamlError String :=
  match lookupY kvs k with
  | none => .error ("missing field " ++ k)
  | some (.str s) => .ok s
  | some _ => .error ("invalid type for field " ++ k)

/-- serde: an optional string field (absent or null yields none). -/
def optString (kvs : List (String × Yaml)) (k : String) : Except YamlError (Option String) :=
  match lookupY kvs k with
  | none => .ok none
  | some .null => .ok none
  | some (.str s) => .ok (some s)
  | some _ => .error ("invalid type for field " ++ k)

/-- serde: an optional boolean field. -/
def optBool (kvs : List (String × Yaml)) (k : String) : Except YamlError (Option Bool) :=
  match lookupY kvs k with
  | none => .ok none
  | some .null => .ok none
  | some (.bool b) => .ok (some b)
  | some _ => .error ("invalid type for field " ++ k)

/-- serde: an optional `u64` field (a non-negative integer scalar below 2^64). -/
def optU64 (kvs : List (String × Yaml)) (k : String) : Except YamlError (Option Nat) :=
  match lookupY kvs k with
  | none => .ok none
  | some .null => .ok none
  | some (.int n) =>
    if 0 ≤ n ∧ n < 2 ^ 64 then .ok (some n.toNat)
    else .error ("invalid value for field " ++ k)
  | some _ => .error ("invalid type for field " ++ k)

/-- The derived `Deserialize` of `FeedKind` (lines 107-113): only the
case-sensitive literals "rss" and "atom" are accepted. -/
def parseFeedKind : Yaml → Except YamlError FeedKind
  | .str s =>
    if s = "rss" then .ok FeedKind.Rss
    else if s = "atom" then .ok FeedKind.Atom
    else .error ("unknown variant " ++ s)
  | _ => .error "invalid type: expected a string for feed kind"

/-- The derived `Deserialize` of `RawFeedConfig` on one YAML value. -/
def parseRawFeedConfig (y : Yaml) : Except YamlError RawFeedConfig :=
  match y with
  | .map kvs =>
    match reqString kvs "url" with
    | .error e => .error e
    | .ok url =>
      match lookupY kvs "kind" with
      | none => .error "missing field kind"
      | some kv =>
        match parseFeedKind kv with
        | .error e => .error e
        | .ok kind =>
          match optBool kvs "include_feed_title" with
          | .error e => .error e
          | .ok ift =>
            match optU64 kvs "request_timeout" with
            | .error e => .error e
            | .ok rt => .ok ⟨url, kind, ift, rt⟩
  | _ => .error "invalid type: expected a map for a feed entry"

/-- Element-wise deserialization of a YAML sequence of feed entries. -/
def parseFeedList : List Yaml → Except YamlError (List RawFeedConfig)
  | [] => .ok []
  | e :: rest =>
    match parseRawFeedConfig e with
    | .error err => .error err
    | .ok rf =>
      match parseFeedList rest with
      | .error err => .error err
      | .ok rfs => .ok (rf :: rfs)

/-- Deserialization of the entries of the `feeds` mapping, in document order. -/
def parseFeedsEntries : List (String × Yaml) → Except YamlError (List (String × List RawFeedConfig))
  | [] => .ok []
  | (k, v) :: rest =>
    match v with
    | .list es =>
      match parseFeedList es with
      | .error err => .error err
      | .ok rfs =>
        match parseFeedsEntries rest with
        | .error err => .error err
        | .ok restP => .ok ((k, rfs) :: restP)
    | _ => .error "invalid type: expected a list of feed entries"

/-- One `HashMap` insertion: replace the value of an existing key, or append. -/
def hashMapInsert (m : List (String × List RawFeedConfig)) (k : String)
    (v : List RawFeedConfig) : List (String × List RawFeedConfig) :=
  if m.any (fun p => p.1 == k) then m.map (fun p => if p.1 == k then (k, v) else p)
  else m ++ [(k, v)]

/-- Contents of the `HashMap` built by inserting the document's entries in
order (duplicate keys: last value wins).  The resulting list keeps the keys in
their order of first appearance in the document; the map's own iteration order
is a permutation of this list. -/
def hashMapOfList (l : List (String × List RawFeedConfig)) : List (String × List RawFeedConfig) :=
  l.foldl (fun m p => hashMapInsert m p.1 p.2) []

/-- `serde_yaml::from_slice::<RawConfig>` (line 52), modelling the derived
`Deserialize` of `RawConfig` at the YAML value level.  The `feeds` field of the
result lists the map's contents with keys in document order of first
appearance. -/
def parseRawConfig (y : Yaml) : Except YamlError RawConfig :=
  match y with
  | .map kvs =>
    match reqString kvs "token" with
    | .error e => .error e
    | .ok token =>
      match optString kvs "proxy" with
      | .error e => .error e
      | .ok proxy =>
        match reqString kvs "redis_url" with
        | .error e => .error e
        | .ok redis_url =>
          match lookupY kvs "feeds" with
          | none => .error "missing field feeds"
          | some (.map fkvs) =>
            match parseFeedsEntries fkvs with
            | .error e => .error e
            | .ok entries =>
              match optBool kvs "include_feed_title" with
              | .error e => .error e
              | .ok ift =>
                match optU64 kvs "request_timeout" with
                | .error e => .error e
                | .ok rt => .ok ⟨token, proxy, redis_url, hashMapOfList entries, ift, rt⟩
          | some _ => .error "invalid type: expected a mapping for feeds"
  | _ => .error "invalid type: expected a mapping"

/-- `Config::from_file` (lines 47-79), with the file read represented by its
result and the `HashMap` iteration order by the explicit list `it`: a failed
read becomes `ReadFile`, a failed deserialization becomes `ParseYaml`, and on
success the configuration is built from the raw data with the map's entries in
the order `it`. -/
def Config.from_fileWith (path : String) (readResult : Except IoError Yaml)
    (it : List (String × List RawFeedConfig)) : Except ConfigError Config :=
  match readResult with
  | .error e => .error (.ReadFile path e)
  | .ok data =>
    match parseRawConfig data with
    | .error e => .error (.ParseYaml e)
    | .ok raw => .ok (Config.build { raw with feeds := it })

/-- `it` is a possible iteration order of the deserialized feeds map: whenever
the read and the parse succeed, `it` is a permutation of the map's contents. -/
def ValidIter (readResult : Except IoError Yaml)
    (it : List (String × List RawFeedConfig)) : Prop :=
  ∀ y raw, readResult = .ok y → parseRawConfig y = .ok raw → it.Perm raw.feeds

/-- `Config::from_file` as a relation: `out` is a possible result of loading,
for some iteration order of the feeds `HashMap`. -/
def Config.LoadsTo (path : String) (readResult : Except IoError Yaml)
    (out : Except ConfigError Config) : Prop :=
  ∃ it, ValidIter readResult it ∧ out = Config.from_fileWith path readResult it

/-- The client configuration built by `Config::get_api_config`: the token plus
an optional validated proxy address. -/
structure ApiConfig where
  token : String
  proxy : Option String
deriving DecidableEq, Repr

/-- Modelled from the spec: tgbot's proxy-address validation (external
library code, not part of this repository), which performs purely syntactic
validation and rejects a string lacking a known scheme. -/
def parseProxy (s : String) : Except ParseProxyError String :=
  if "http://".data.isPrefixOf s.data
      || "https://".data.isPrefixOf s.data
      || "socks5://".data.isPrefixOf s.data then .ok s
  else .error ("malformed proxy address " ++ s)

/-- `Config::get_api_config` (lines 81-87): build the client configuration from
the token, validating and attaching the proxy only when one is present. -/
def Config.get_api_config (c : Config) : Except ConfigError ApiConfig :=
  match c.proxy with
  | none => .ok ⟨c.token, none⟩
  | some p =>
    match parseProxy p with
    | .error e => .error (.ProxyAddress e)
    | .ok v => .ok ⟨c.token, some v⟩

/-- `Config::into_feeds` (lines 93-95). -/
def Config.into_feeds (c : Config) : List FeedConfig := c.feeds

/-! ## Helper lemmas -/

theorem foldl_append_singleton {α β : Type} (f : α → β) (l : List α) (acc : List β) :
    l.foldl (fun a x => a ++ [f x]) acc = acc ++ l.map f := by
  induction l generalizing acc with
  | nil => simp
  | cons x xs ih => simp [ih]

theorem build_loop_eq (dIft : Bool) (dRt : Nat) (l : List (String × List RawFeedConfig))
    (acc : List FeedConfig) :
    l.foldl (fun acc2 p =>
        p.2.foldl (fun a rf => a ++ [mkFeed (resolveChatId p.1) dIft dRt rf]) acc2) acc
      = acc ++ l.flatMap (fun p => p.2.map (mkFeed (resolveChatId p.1) dIft dRt)) := by
  induction l generalizing acc with
  | nil => simp
  | cons p ps ih =>
    rw [List.foldl_cons, foldl_append_singleton, ih, List.flatMap_cons, List.append_assoc]

/-- The feed sequence assembled by the loop of `Config::from_file`: one
`FeedConfig` per raw entry, grouped by map entry, groups in iteration order. -/
theorem build_feeds_eq (raw : RawConfig) :
    (Config.build raw).feeds = raw.feeds.flatMap (fun p =>
      p.2.map (mkFeed (resolveChatId p.1) (raw.include_feed_title.getD DEFAULT_INCLUDE_FEED_TITLE)
        (raw.request_timeout.getD DEFAULT_REQUEST_TIMEOUT))) := by
  simp [Config.build, build_loop_eq]

/-- A successful numeric parse passed the range check of the `i64` domain. -/
theorem parseI64_range (s : String) (n : Int) (h : parseI64 s = some n) :
    i64Min ≤ n ∧ n ≤ i64Max := by
  simp only [parseI64] at h
  split_ifs at h with h1 h2 h3
  cases Option.some.inj h
  exact h3

/-! ## Claim theorems -/

/-- Claim C1: the destination identifier is resolved deterministically from the
key text alone — a key that parses as a signed integer in the `i64` domain
(no truncation or wrapping, so the parsed value is always in range) becomes a
numeric id, any other key (non-numeric, empty, or numeric-looking but out of
range) becomes a symbolic name holding the key verbatim — and every feed built
under a key carries exactly that resolved identifier. -/
theorem c1_destination_identifier_resolution :
    (∀ raw : RawConfig, (Config.build raw).feeds = raw.feeds.flatMap (fun p =>
        p.2.map (mkFeed (resolveChatId p.1)
          (raw.include_feed_title.getD DEFAULT_INCLUDE_FEED_TITLE)
          (raw.request_timeout.getD DEFAULT_REQUEST_TIMEOUT)))) ∧
    (∀ key dIft dRt rf,
        (mkFeed (resolveChatId key) dIft dRt rf).chat_id = resolveChatId key) ∧
    (∀ key n, parseI64 key = some n →
        i64Min ≤ n ∧ n ≤ i64Max ∧ resolveChatId key = ChatId.id n) ∧
    (∀ key, parseI64 key = none → resolveChatId key = ChatId.username key) ∧
    resolveChatId "12345" = ChatId.id 12345 ∧
    resolveChatId "@channel" = ChatId.username "@channel" ∧
    resolveChatId "" = ChatId.username "" ∧
    resolveChatId "9223372036854775808" = ChatId.username "9223372036854775808" ∧
    resolveChatId "9223372036854775807" = ChatId.id 9223372036854775807 := by
  refine ⟨fun raw => build_feeds_eq raw, fun key dIft dRt rf => rfl, ?_, ?_,
    by decide, by decide, by decide, by decide, by decide⟩
  · intro key n h
    rcases parseI64_range key n h with ⟨h1, h2⟩
    refine ⟨h1, h2, ?_⟩
    unfold resolveChatId
    rw [h]
  · intro key h
    unfold resolveChatId
    rw [h]

/-- Witness for C1 at the concrete key "77". -/
theorem c1_destination_identifier_resolution_witness :
    i64Min ≤ (77 : Int) ∧ (77 : Int) ≤ i64Max ∧ resolveChatId "77" = ChatId.id 77 :=
  c1_destination_identifier_resolution.2.2.1 "77" 77 (by decide)

/-- Claim C2: each loaded feed entry resolves `include_feed_title` to its own
value when present, else to the file-global value when present, else `false`;
and `request_timeout` to its own value in seconds when present, else to the
file-global value, else 1200 seconds. -/
theorem c2_default_layering (raw : RawConfig) :
    (Config.build raw).feeds = raw.feeds.flatMap (fun p => p.2.map (fun rf =>
      { chat_id := resolveChatId p.1
        url := rf.url
        kind := rf.kind
        include_feed_title := rf.include_feed_title.getD (raw.include_feed_title.getD false)
        request_timeout :=
          Duration.from_secs (rf.request_timeout.getD (raw.request_timeout.getD 1200)) })) := by
  simpa [mkFeed, DEFAULT_INCLUDE_FEED_TITLE, DEFAULT_REQUEST_TIMEOUT] using build_feeds_eq raw

/-- Claim C7: when the file read fails, the load fails with a ReadFile error
carrying both the offending path and the underlying I/O error, and the error's
causal chain exposes that underlying error. -/
theorem c7_read_file_error (path : String) (e : IoError)
    (it : List (String × List RawFeedConfig)) :
    Config.from_fileWith path (.error e) it = .error (.ReadFile path e) ∧
    (ConfigError.ReadFile path e).source = some (.io e) :=
  ⟨rfl, rfl⟩

/-- A minimal configuration file: a token, a redis url, and an empty feeds
mapping. -/
def minimalYaml (t r : String) : Yaml :=
  .map [("token", .str t), ("redis_url", .str r), ("feeds", .map [])]

/-- Deserializing the minimal file yields the raw configuration with an empty
feeds map and no optional fields. -/
theorem minimalYaml_parse (t r : String) :
    parseRawConfig (minimalYaml t r) = .ok ⟨t, none, r, [], none, none⟩ := rfl

/-- Claim C8: loading a valid minimal file (token, redis_url, empty feeds
mapping) succeeds, and the resulting configuration has an empty feed
sequence. -/
theorem c8_minimal_file (path t r : String) (out : Except ConfigError Config)
    (h : Config.LoadsTo path (.ok (minimalYaml t r)) out) :
    out = .ok ⟨t, none, r, []⟩ := by
  obtain ⟨it, hvalid, rfl⟩ := h
  have hperm : it.Perm [] :=
    hvalid (minimalYaml t r) ⟨t, none, r, [], none, none⟩ rfl (minimalYaml_parse t r)
  have hnil : it = [] := List.perm_nil.mp hperm
  subst hnil
  rfl

/-- Witness for C8 at a concrete minimal file. -/
theorem c8_minimal_file_witness :
    Config.from_fileWith "cfg.yml" (.ok (minimalYaml "tok" "red")) []
      = .ok ⟨"tok", none, "red", []⟩ :=
  c8_minimal_file "cfg.yml" "tok" "red" _
    ⟨[], fun y raw hy hp => by
      cases hy
      rw [minimalYaml_parse] at hp
      cases hp
      exact List.Perm.refl [], rfl⟩

/-- Claim C10: when the proxy field is absent, deriving the client
configuration always succeeds with the token alone (the ProxyAddress branch is
unreachable); the derivation is a pure function of the configuration, so
repeated calls return this same value. -/
theorem c10_no_proxy_derivation (c : Config) (h : c.proxy = none) :
    c.get_api_config = .ok ⟨c.token, none⟩ ∧ c.get_api_config = c.get_api_config := by
  constructor
  · unfold Config.get_api_config
    rw [h]
  · rfl

/-- Witness for C10 at a concrete configuration without a proxy. -/
theorem c10_no_proxy_derivation_witness :
    (Config.mk "t" none "r" []).get_api_config = .ok ⟨"t", none⟩ ∧
    (Config.mk "t" none "r" []).get_api_config = (Config.mk "t" none "r" []).get_api_config :=
  c10_no_proxy_derivation ⟨"t", none, "r", []⟩ rfl

/-- A raw feed entry used by the ordering counterexamples. -/
def rfcA : RawFeedConfig := ⟨"http://a.example/feed", FeedKind.Rss, none, none⟩

/-- A second raw feed entry used by the ordering counterexamples. -/
def rfcB : RawFeedConfig := ⟨"http://b.example/feed", FeedKind.Atom, none, none⟩

/-- A configuration file with two destination keys, "alpha" before "beta". -/
def twoKeyYaml : Yaml :=
  .map [("token", .str "t"), ("redis_url", .str "r"),
        ("feeds", .map
          [("alpha", .list [.map [("url", .str "http://a.example/feed"), ("kind", .str "rss")]]),
           ("beta", .list [.map [("url", .str "http://b.example/feed"), ("kind", .str "atom")]])])]

/-- The deserialized form of `twoKeyYaml`, keys in file order. -/
def twoKeyRaw : RawConfig :=
  ⟨"t", none, "r", [("alpha", [rfcA]), ("beta", [rfcB])], none, none⟩

theorem twoKeyYaml_parse : parseRawConfig twoKeyYaml = .ok twoKeyRaw := rfl

/-- The map's entries in file order. -/
def iterFileOrder : List (String × List RawFeedConfig) := [("alpha", [rfcA]), ("beta", [rfcB])]

/-- The map's entries in the opposite order — an equally possible iteration
order of the `HashMap`, whose iteration order is unspecified. -/
def iterSwapped : List (String × List RawFeedConfig) := [("beta", [rfcB]), ("alpha", [rfcA])]

/-- The configuration built when the map yields its entries in file order. -/
def cfgFileOrder : Config := Config.build { twoKeyRaw with feeds := iterFileOrder }

/-- The configuration built when the map yields its entries in swapped order. -/
def cfgSwapped : Config := Config.build { twoKeyRaw with feeds := iterSwapped }

/-- Modelled from the spec's words (the ordering that claim C3 asserts): the
load result with the destination keys taken in their order of appearance in
the source file, which is exactly the order `parseRawConfig` records. -/
def fileOrderLoad (path : String) (r : Except IoError Yaml) : Except ConfigError Config :=
  match r with
  | .error e => .error (.ReadFile path e)
  | .ok y =>
    match parseRawConfig y with
    | .error e => .error (.ParseYaml e)
    | .ok raw => .ok (Config.build raw)

/-- Counterexample to claim C3 as stated: the source iterates a
`std::collections::HashMap`, whose iteration order is unspecified, so a load
of a two-key file may yield the keys in an order other than their order of
appearance; such a load result differs from the file-ordered feed sequence. -/
theorem c3_counterexample :
    Config.LoadsTo "cfg.yml" (.ok twoKeyYaml) (.ok cfgSwapped) ∧
    fileOrderLoad "cfg.yml" (.ok twoKeyYaml) = .ok cfgFileOrder ∧
    cfgSwapped.feeds ≠ cfgFileOrder.feeds := by
  refine ⟨⟨iterSwapped, ?_, rfl⟩, rfl, by decide⟩
  intro y raw hy hp
  cases hy
  rw [twoKeyYaml_parse] at hp
  cases hp
  decide

/-- Claim C3 amended: within each destination key the subscriptions follow
that key's entry-list order, and the keys appear in the map's iteration
order — a permutation of the keys' order of appearance in the file, but not
necessarily that order itself. -/
theorem c3_feed_ordering (path : String) (y : Yaml) (raw : RawConfig)
    (it : List (String × List RawFeedConfig)) (c : Config)
    (hp : parseRawConfig y = .ok raw) (hit : it.Perm raw.feeds)
    (hc : Config.from_fileWith path (.ok y) it = .ok c) :
    c.feeds = it.flatMap (fun p => p.2.map (mkFeed (resolveChatId p.1)
        (raw.include_feed_title.getD DEFAULT_INCLUDE_FEED_TITLE)
        (raw.request_timeout.getD DEFAULT_REQUEST_TIMEOUT))) ∧
    (it.map Prod.fst).Perm (raw.feeds.map Prod.fst) := by
  simp only [Config.from_fileWith, hp, Except.ok.injEq] at hc
  subst hc
  exact ⟨build_feeds_eq _, hit.map Prod.fst⟩

/-- Witness for the amended C3 at the swapped iteration order. -/
theorem c3_feed_ordering_witness :
    cfgSwapped.feeds = iterSwapped.flatMap (fun p => p.2.map (mkFeed (resolveChatId p.1)
        (twoKeyRaw.include_feed_title.getD DEFAULT_INCLUDE_FEED_TITLE)
        (twoKeyRaw.request_timeout.getD DEFAULT_REQUEST_TIMEOUT))) ∧
    (iterSwapped.map Prod.fst).Perm (twoKeyRaw.feeds.map Prod.fst) :=
  c3_feed_ordering "cfg.yml" twoKeyYaml twoKeyRaw iterSwapped cfgSwapped
    twoKeyYaml_parse (by decide) rfl

/-- Counterexample to claim C4 as stated: two loads of the same two-key file
can yield the map's entries in different orders, so the two resulting feed
sequences need not be equal. -/
theorem c4_counterexample :
    Config.LoadsTo "cfg.yml" (.ok twoKeyYaml) (.ok cfgFileOrder) ∧
    Config.LoadsTo "cfg.yml" (.ok twoKeyYaml) (.ok cfgSwapped) ∧
    cfgFileOrder.feeds ≠ cfgSwapped.feeds := by
  refine ⟨⟨iterFileOrder, ?_, rfl⟩, ⟨iterSwapped, ?_, rfl⟩, by decide⟩
  all_goals
    intro y raw hy hp
    cases hy
    rw [twoKeyYaml_parse] at hp
    cases hp
    decide

/-- Claim C4 amended: two loads of the same file agree on token, proxy and
redis_url, and their feed sequences are permutations of each other (the same
subscriptions, though not necessarily in the same order, since the map's
iteration order is unspecified). -/
theorem c4_load_agreement (path : String) (r : Except IoError Yaml) (a b : Config)
    (ha : Config.LoadsTo path r (.ok a)) (hb : Config.LoadsTo path r (.ok b)) :
    a.token = b.token ∧ a.proxy = b.proxy ∧ a.redis_url = b.redis_url ∧
    a.feeds.Perm b.feeds := by
  obtain ⟨it1, hv1, he1⟩ := ha
  obtain ⟨it2, hv2, he2⟩ := hb
  cases r with
  | error e =>
    simp only [Config.from_fileWith] at he1
    exact Except.noConfusion he1
  | ok y =>
    cases hp : parseRawConfig y with
    | error e =>
      simp only [Config.from_fileWith, hp] at he1
      exact Except.noConfusion he1
    | ok raw =>
      simp only [Config.from_fileWith, hp, Except.ok.injEq] at he1 he2
      subst he1
      subst he2
      have p1 := hv1 y raw rfl hp
      have p2 := hv2 y raw rfl hp
      refine ⟨rfl, rfl, rfl, ?_⟩
      rw [build_feeds_eq, build_feeds_eq]
      exact (p1.trans p2.symm).flatMap_right _

/-- Witness for the amended C4 at two concrete loads of the two-key file. -/
theorem c4_load_agreement_witness :
    cfgFileOrder.token = cfgSwapped.token ∧ cfgFileOrder.proxy = cfgSwapped.proxy ∧
    cfgFileOrder.redis_url = cfgSwapped.redis_url ∧ cfgFileOrder.feeds.Perm cfgSwapped.feeds :=
  c4_load_agreement "cfg.yml" (.ok twoKeyYaml) cfgFileOrder cfgSwapped
    ⟨iterFileOrder, fun y raw hy hp => by
      cases hy
      rw [twoKeyYaml_parse] at hp
      cases hp
      decide, rfl⟩
    ⟨iterSwapped, fun y raw hy hp => by
      cases hy
      rw [twoKeyYaml_parse] at hp
      cases hp
      decide, rfl⟩

/-- The kind value is one of the two accepted literals. -/
def kindOkB : Yaml → Bool
  | .str s => s == "rss" || s == "atom"
  | _ => false

/-- The feed entry carries a kind value outside the two accepted literals. -/
def badKindEntry : Yaml → Bool
  | .map kvs =>
    match lookupY kvs "kind" with
    | some v => !(kindOkB v)
    | none => false
  | _ => false

/-- The document's feeds mapping contains some entry whose kind value is not
one of the case-sensitive literals "rss" and "atom". -/
def hasInvalidKind (y : Yaml) : Bool :=
  match y with
  | .map kvs =>
    match lookupY kvs "feeds" with
    | some (.map fkvs) => fkvs.any (fun p =>
        match p.2 with
        | .list es => es.any badKindEntry
        | _ => false)
    | _ => false
  | _ => false

theorem parseFeedKind_error (v : Yaml) (h : kindOkB v = false) :
    ∃ e, parseFeedKind v = .error e := by
  cases v with
  | str s =>
    simp only [kindOkB, Bool.or_eq_false_iff, beq_eq_false_iff_ne, ne_eq] at h
    exact ⟨"unknown variant " ++ s, by simp [parseFeedKind, h.1, h.2]⟩
  | null => exact ⟨_, rfl⟩
  | bool b => exact ⟨_, rfl⟩
  | int n => exact ⟨_, rfl⟩
  | list xs => exact ⟨_, rfl⟩
  | map kvs => exact ⟨_, rfl⟩

theorem parseRawFeedConfig_badKind (e : Yaml) (h : badKindEntry e = true) :
    ∃ err, parseRawFeedConfig e = .error err := by
  cases e with
  | map kvs =>
    simp only [badKindEntry] at h
    cases hk : lookupY kvs "kind" with
    | none => rw [hk] at h; exact Bool.noConfusion h
    | some v =>
      rw [hk] at h
      have hv : kindOkB v = false := by simpa using h
      obtain ⟨e2, he2⟩ := parseFeedKind_error v hv
      cases hu : reqString kvs "url" with
      | error e3 => exact ⟨e3, by simp [parseRawFeedConfig, hu]⟩
      | ok url => exact ⟨e2, by simp [parseRawFeedConfig, hu, hk, he2]⟩
  | null => exact Bool.noConfusion h
  | str s => exact Bool.noConfusion h
  | bool b => exact Bool.noConfusion h
  | int n => exact Bool.noConfusion h
  | list xs => exact Bool.noConfusion h

theorem parseFeedList_badKind (es : List Yaml) (h : es.any badKindEntry = true) :
    ∃ e, parseFeedList es = .error e := by
  induction es with
  | nil => exact Bool.noConfusion h
  | cons x xs ih =>
    rw [List.any_cons] at h
    by_cases hx : badKindEntry x = true
    · obtain ⟨e, he⟩ := parseRawFeedConfig_badKind x hx
      exact ⟨e, by simp [parseFeedList, he]⟩
    · have hb : badKindEntry x = false := Bool.eq_false_iff.mpr hx
      rw [hb, Bool.false_or] at h
      obtain ⟨e, he⟩ := ih h
      cases hp : parseRawFeedConfig x with
      | error e2 => exact ⟨e2, by simp [parseFeedList, hp]⟩
      | ok rf => exact ⟨e, by simp [parseFeedList, hp, he]⟩

theorem parseFeedsEntries_badKind (fkvs : List (String × Yaml))
    (h : fkvs.any (fun p =>
      match p.2 with
      | .list es => es.any badKindEntry
      | _ => false) = true) :
    ∃ e, parseFeedsEntries fkvs = .error e := by
  induction fkvs with
  | nil => exact Bool.noConfusion h
  | cons p ps ih =>
    rw [List.any_cons] at h
    obtain ⟨k, v⟩ := p
    cases v with
    | list es =>
      by_cases hx : es.any badKindEntry = true
      · obtain ⟨e, he⟩ := parseFeedList_badKind es hx
        exact ⟨e, by simp [parseFeedsEntries, he]⟩
      · have hb : es.any badKindEntry = false := Bool.eq_false_iff.mpr hx
        simp only [hb, Bool.false_or] at h
        obtain ⟨e, he⟩ := ih h
        cases hl : parseFeedList es with
        | error e2 => exact ⟨e2, by simp [parseFeedsEntries, hl]⟩
        | ok rfs => exact ⟨e, by simp [parseFeedsEntries, hl, he]⟩
    | null => exact ⟨_, rfl⟩
    | str s => exact ⟨_, rfl⟩
    | bool b => exact ⟨_, rfl⟩
    | int n => exact ⟨_, rfl⟩
    | map kvs2 => exact ⟨_, rfl⟩

/-- A document containing an invalid feed kind never deserializes. -/
theorem parseRawConfig_invalidKind (y : Yaml) (h : hasInvalidKind y = true) :
    ∃ e, parseRawConfig y = .error e := by
  cases y with
  | map kvs =>
    simp only [hasInvalidKind] at h
    cases hf : lookupY kvs "feeds" with
    | none => rw [hf] at h; exact Bool.noConfusion h
    | some fv =>
      rw [hf] at h
      cases fv with
      | map fkvs =>
        obtain ⟨e, he⟩ := parseFeedsEntries_badKind fkvs h
        cases ht : reqString kvs "token" with
        | error e2 => exact ⟨e2, by simp [parseRawConfig, ht]⟩
        | ok tok =>
          cases hpx : optString kvs "proxy" with
          | error e2 => exact ⟨e2, by simp [parseRawConfig, ht, hpx]⟩
          | ok px =>
            cases hr : reqString kvs "redis_url" with
            | error e2 => exact ⟨e2, by simp [parseRawConfig, ht, hpx, hr]⟩
            | ok ru => exact ⟨e, by simp [parseRawConfig, ht, hpx, hr, hf, he]⟩
      | null => exact Bool.noConfusion h
      | str s => exact Bool.noConfusion h
      | bool b => exact Bool.noConfusion h
      | int n => exact Bool.noConfusion h
      | list xs => exact Bool.noConfusion h
  | null => exact Bool.noConfusion h
  | str s => exact Bool.noConfusion h
  | bool b => exact Bool.noConfusion h
  | int n => exact Bool.noConfusion h
  | list xs => exact Bool.noConfusion h

/-- Claim C5: every deserialization failure — in particular a feed kind other
than the case-sensitive literals "rss" and "atom" — makes the load fail with a
ParseYaml error carrying the parser diagnostic as cause, and no configuration,
not even a partial one, is returned. -/
theorem c5_parse_failure (path : String) (y : Yaml)
    (it : List (String × List RawFeedConfig)) :
    (∀ e, parseRawConfig y = .error e →
      Config.from_fileWith path (.ok y) it = .error (.ParseYaml e) ∧
      (ConfigError.ParseYaml e).source = some (.yaml e)) ∧
    (hasInvalidKind y = true →
      (∃ e, Config.from_fileWith path (.ok y) it = .error (.ParseYaml e)) ∧
      ∀ c, Config.from_fileWith path (.ok y) it ≠ .ok c) := by
  constructor
  · intro e he
    exact ⟨by simp [Config.from_fileWith, he], rfl⟩
  · intro h
    obtain ⟨e, he⟩ := parseRawConfig_invalidKind y h
    refine ⟨⟨e, by simp [Config.from_fileWith, he]⟩, ?_⟩
    intro c hc
    simp [Config.from_fileWith, he] at hc

/-- A file whose single feed entry has the unknown kind "json". -/
def badKindYaml : Yaml :=
  .map [("token", .str "t"), ("redis_url", .str "r"),
        ("feeds", .map [("chan", .list [.map [("url", .str "u"), ("kind", .str "json")]])])]

/-- Witness for C5 at the concrete file with kind "json". -/
theorem c5_parse_failure_witness :
    Config.from_fileWith "cfg.yml" (.ok badKindYaml) []
        = .error (.ParseYaml "unknown variant json") ∧
    (ConfigError.ParseYaml "unknown variant json").source
        = some (.yaml "unknown variant json") :=
  (c5_parse_failure "cfg.yml" badKindYaml []).1 "unknown variant json" rfl

/-- Claim C6: proxy validation happens only at client-config derivation, never
at load: a load succeeds whenever the file reads and deserializes, regardless
of the proxy string, and deriving the client configuration from a
configuration whose proxy is present but syntactically invalid fails with a
ProxyAddress error carrying the validator's diagnostic as cause. -/
theorem c6_proxy_validation_deferred (path : String) (y : Yaml) (raw : RawConfig)
    (it : List (String × List RawFeedConfig)) (hp : parseRawConfig y = .ok raw) :
    Config.from_fileWith path (.ok y) it = .ok (Config.build { raw with feeds := it }) ∧
    (∀ (c : Config) (s : String) (e : ParseProxyError),
      c.proxy = some s → parseProxy s = .error e →
      c.get_api_config = .error (.ProxyAddress e) ∧
      (ConfigError.ProxyAddress e).source = some (.proxy e)) := by
  constructor
  · simp [Config.from_fileWith, hp]
  · intro c s e hs he
    refine ⟨?_, rfl⟩
    simp [Config.get_api_config, hs, he]

/-- The raw form of the file behind the C6 witness: the proxy string lacks a
scheme, yet the file deserializes. -/
def invalidProxyRaw : RawConfig := ⟨"t", some "localhost:3128", "r", [], none, none⟩

/-- A file whose proxy string has no scheme. -/
def invalidProxyYaml : Yaml :=
  .map [("token", .str "t"), ("proxy", .str "localhost:3128"),
        ("redis_url", .str "r"), ("feeds", .map [])]

/-- Witness for C6: the scheme-less proxy loads fine and fails only at
derivation. -/
theorem c6_proxy_validation_deferred_witness :
    (Config.mk "t" (some "localhost:3128") "r" []).get_api_config
        = .error (.ProxyAddress "malformed proxy address localhost:3128") ∧
    (ConfigError.ProxyAddress "malformed proxy address localhost:3128").source
        = some (.proxy "malformed proxy address localhost:3128") :=
  (c6_proxy_validation_deferred "p" invalidProxyYaml invalidProxyRaw [] rfl).2
    ⟨"t", some "localhost:3128", "r", []⟩ "localhost:3128" _ rfl rfl

/-- Claim C9: the number of feed subscriptions in a loaded configuration
equals the sum, over the destination keys of the feeds mapping, of the lengths
of their entry lists — no entry is dropped, duplicated or merged. -/
theorem c9_feed_count (path : String) (y : Yaml) (raw : RawConfig)
    (it : List (String × List RawFeedConfig)) (c : Config)
    (hp : parseRawConfig y = .ok raw) (hit : it.Perm raw.feeds)
    (hc : Config.from_fileWith path (.ok y) it = .ok c) :
    c.feeds.length = (raw.feeds.map (fun p => p.2.length)).sum := by
  simp only [Config.from_fileWith, hp, Except.ok.injEq] at hc
  subst hc
  rw [build_feeds_eq, List.length_flatMap]
  have hs := (hit.map (fun p : String × List RawFeedConfig => p.2.length)).sum_eq
  simpa [Function.comp_def] using hs

/-- Witness for C9 at the two-key file with the swapped iteration order. -/
theorem c9_feed_count_witness :
    cfgSwapped.feeds.length = (twoKeyRaw.feeds.map (fun p => p.2.length)).sum :=
  c9_feed_count "cfg.yml" twoKeyYaml twoKeyRaw iterSwapped cfgSwapped
    twoKeyYaml_parse (by decide) rfl

end Telefeed
